import Mathlib

/-!
# Tile persistence and resume index of the MBTiles serializer

A shallow embedding of `MbTilesDb` (MbTilesDb.cpp) and `CTBMBTileSerializer`
(CTBMBTileSerializer.cpp), followed by the properties proved about them.

Conventions of the embedding

* C++ unsigned machine integers are natural numbers; `uint64_t` arithmetic is reduced
  modulo `2 ^ 64` where the source computes in that type.  C++ `int` is an integer with
  the two's-complement wrap to 32 bits wherever a value is converted to it.
* The SQLite engine is modelled by its effect on the logical content of the two tables.
  Each engine call whose result the source tests may also be refused by the environment
  (I/O error, busy, out of memory); a `Faults` argument says which calls are refused.
* Methods that can change the object they are called on return the new object next to
  their result; an exception is an `Except.error` result.
* The function-local mutexes are not modelled: calls are sequential.
-/

namespace ctb

/-! ## Machine integers -/

/-- Value of an expression computed in `uint64_t`. -/
def u64 (n : Nat) : Nat := n % 2 ^ 64

/-- Conversion of a signed value to `uint64_t` (`uint64_t z = <int>`). -/
def toUInt64 (i : Int) : Nat := (i % 2 ^ 64).toNat

/-- Conversion of a value to a 32-bit `int` (two's-complement wrap). -/
def toInt32 (i : Int) : Int := (i + 2 ^ 31) % 2 ^ 32 - 2 ^ 31

/-- The expression `(z << 58) | (x << 29) | y` on three `uint64_t` operands, as written in
`recordValidPoint`, `checkIfAlreadyRendered` and `loadRenderedTiles`. -/
def packKey (z x y : Nat) : Nat := u64 (z <<< 58) ||| u64 (x <<< 29) ||| y

/-! ## Tile coordinates -/

/-- A `ctb::TileCoordinate`: `zoom` is an `i_zoom` (unsigned short), `x` and `y` are
`i_tile` (unsigned int). -/
structure TileCoordinate where
  zoom : Nat
  x : Nat
  y : Nat
deriving DecidableEq, Repr

/-- The values the C++ field types can hold. -/
def TileCoordinate.Valid (c : TileCoordinate) : Prop :=
  c.zoom < 2 ^ 16 ∧ c.x < 2 ^ 32 ∧ c.y < 2 ^ 32

instance (c : TileCoordinate) : Decidable c.Valid := by
  unfold TileCoordinate.Valid; infer_instance

/-- The documented bit budget of the key: 6 bits of zoom, 29 bits of column and of row. -/
def TileCoordinate.InBudget (c : TileCoordinate) : Prop :=
  c.zoom ≤ 63 ∧ c.x < 2 ^ 29 ∧ c.y < 2 ^ 29

instance (c : TileCoordinate) : Decidable c.InBudget := by
  unfold TileCoordinate.InBudget; infer_instance

/-- The key of a coordinate as `recordValidPoint` and `checkIfAlreadyRendered` compute it:
the three fields are widened to `uint64_t` and packed. -/
def coordinateKey (coord : TileCoordinate) : Nat :=
  let z := coord.zoom
  let x := coord.x
  let y := coord.y
  packKey z x y

/-! ## The SQLite engine and the container -/

/-- Result codes the source distinguishes.  `SQLITE_IOERR` stands for every code with which
the engine refuses a call for a reason outside the logical content of the tables. -/
inductive Rc where
  | SQLITE_OK
  | SQLITE_ROW
  | SQLITE_DONE
  | SQLITE_CONSTRAINT
  | SQLITE_IOERR
deriving DecidableEq, Repr

/-- Which engine calls of one operation the environment refuses: `faults k` is `true` when the
call at position `k` of the operation (in source order, from 0) is refused. -/
abbrev Faults := Nat → Bool

/-- The environment refuses no call. -/
def noFaults : Faults := fun _ => false

/-- A byte sequence (`const char *data, int size`). -/
abbrev Blob := List UInt8

/-- A row of `tiles (zoom_level integer, tile_column integer, tile_row integer,
tile_data blob)`.  `none` is SQL `NULL`; an integer column holds a signed 64-bit value. -/
structure TileRow where
  zoom_level : Option Int
  tile_column : Option Int
  tile_row : Option Int
  tile_data : Option Blob
deriving DecidableEq, Repr

/-- A row of `metadata (name text, value text)`. -/
structure MetadataRow where
  name : Option String
  value : Option String
deriving DecidableEq, Repr

/-- The entry of a tile row in the unique index `tile_index on tiles (zoom_level,
tile_column, tile_row)`; a row with a `NULL` key column never conflicts with another. -/
def TileRow.indexKey (r : TileRow) : Option (Int × Int × Int) :=
  match r.zoom_level, r.tile_column, r.tile_row with
  | some z, some x, some y => some (z, x, y)
  | _, _, _ => none

/-- The table content satisfies the unique index `tile_index`. -/
def tileIndexHolds (rows : List TileRow) : Prop :=
  (rows.filterMap TileRow.indexKey).Nodup

instance (rows : List TileRow) : Decidable (tileIndexHolds rows) := by
  unfold tileIndexHolds; infer_instance

/-- The table content satisfies the unique index `name on metadata (name)`. -/
def nameIndexHolds (rows : List MetadataRow) : Prop :=
  (rows.filterMap MetadataRow.name).Nodup

instance (rows : List MetadataRow) : Decidable (nameIndexHolds rows) := by
  unfold nameIndexHolds; infer_instance

/-- Inserting `new` would violate `tile_index`. -/
def violatesTileIndex (rows : List TileRow) (new : TileRow) : Bool :=
  match new.indexKey with
  | none => false
  | some k => decide (k ∈ rows.filterMap TileRow.indexKey)

/-- Inserting `new` would violate the unique index on `metadata.name`. -/
def violatesNameIndex (rows : List MetadataRow) (new : MetadataRow) : Bool :=
  match new.name with
  | none => false
  | some n => decide (n ∈ rows.filterMap MetadataRow.name)

/-- The prepared statement `insert into tiles (zoom_level, tile_column, tile_row, tile_data)
values (?, ?, ?, ?)`: its four parameter bindings and whether it has been stepped since it
was last reset. -/
structure TileStmt where
  p1 : Option Int
  p2 : Option Int
  p3 : Option Int
  p4 : Option Blob
  stepped : Bool
deriving DecidableEq, Repr

/-- Engine call `sqlite3_reset`: the statement can be bound and stepped again; the bindings
are kept. -/
def sqlite3_reset (stmt : TileStmt) : TileStmt :=
  { stmt with stepped := false }

/-- Engine call `sqlite3_clear_bindings`: every parameter becomes `NULL`. -/
def sqlite3_clear_bindings (stmt : TileStmt) : TileStmt :=
  { stmt with p1 := none, p2 := none, p3 := none, p4 := none }

/-- Engine call `sqlite3_bind_int(stmt, idx, v)` for the integer parameters 1 to 3.  On a
statement stepped since its last reset the call is a misuse and binds nothing. -/
def sqlite3_bind_int (stmt : TileStmt) (idx : Nat) (v : Int) : TileStmt :=
  if stmt.stepped then stmt
  else if idx = 1 then { stmt with p1 := some v }
  else if idx = 2 then { stmt with p2 := some v }
  else if idx = 3 then { stmt with p3 := some v }
  else stmt

/-- Engine call `sqlite3_bind_blob(stmt, 4, data, size, NULL)` with a non-null `data`. -/
def sqlite3_bind_blob (stmt : TileStmt) (data : Blob) : TileStmt :=
  if stmt.stepped then stmt else { stmt with p4 := some data }

/-- The content of a container file: the rows of its two tables. -/
structure Container where
  tiles : List TileRow
  metadata : List MetadataRow
deriving DecidableEq, Repr

/-- An open `ctb::MbTilesDb`: the content of the database behind the connection `mbTiles`
and the state of the prepared statement `tile_stmt`. -/
structure MbTilesDb where
  tiles : List TileRow
  metadata : List MetadataRow
  tile_stmt : TileStmt
deriving DecidableEq, Repr

/-- Engine call `sqlite3_step` on the insert statement: the row made of the current bindings
is appended unless the environment refuses the call or `tile_index` rejects the row. -/
def sqlite3_step_insert (db : MbTilesDb) (refused : Bool) : Rc × MbTilesDb :=
  let stmt := db.tile_stmt
  let row : TileRow := ⟨stmt.p1, stmt.p2, stmt.p3, stmt.p4⟩
  let done : TileStmt := { stmt with stepped := true }
  if refused then (Rc.SQLITE_IOERR, { db with tile_stmt := done })
  else if violatesTileIndex db.tiles row then (Rc.SQLITE_CONSTRAINT, { db with tile_stmt := done })
  else (Rc.SQLITE_DONE, { db with tiles := db.tiles ++ [row], tile_stmt := done })

/-- First `sqlite3_step` of a `SELECT` whose result set is `rows`. -/
def sqlite3_step_select {α : Type} (rows : List α) (refused : Bool) : Rc :=
  if refused then Rc.SQLITE_IOERR
  else if rows.isEmpty then Rc.SQLITE_DONE
  else Rc.SQLITE_ROW

/-- Engine call `sqlite3_column_int` on an integer column: `NULL` reads as 0 and a stored
64-bit value is truncated to `int`. -/
def sqlite3_column_int (v : Option Int) : Int :=
  match v with
  | none => 0
  | some i => toInt32 i

/-- The C string `s.c_str()` denotes when it is read up to its terminator, as the `%Q`
conversion of `sqlite3_mprintf` does: the characters before the first NUL. -/
def c_str (s : String) : String :=
  String.mk (s.data.takeWhile (fun ch => decide (ch ≠ Char.ofNat 0)))

/-! ## MbTilesDb -/

/-- Constructor `MbTilesDb::MbTilesDb(dbname)` on the file found at `dbname` (`none`: no
file, the engine creates an empty one).  Engine calls in order: 0 `sqlite3_open`, 1 to 3 the
three `PRAGMA`s, 4 and 5 `CREATE TABLE IF NOT EXISTS`, 6 and 7 `create unique index IF NOT
EXISTS`, 8 `sqlite3_prepare_v2` of the insert statement.  A unique index cannot be created
over rows that already violate it. -/
def MbTilesDb.new (file : Option Container) (faults : Faults) : Except String MbTilesDb :=
  let content : Container := file.getD ⟨[], []⟩
  if faults 0 then Except.error "SQLite Error: Failed to open"
  else if faults 1 then Except.error "SQLite Error: Async error"
  else if faults 2 then Except.error "SQLite Error: Async error"
  else if faults 3 then Except.error "SQLite Error: Async error"
  else if faults 4 then Except.error "SQLite Error: Metadata Table Creation error"
  else if faults 5 then Except.error "SQLite Error: Tiles Table Creation error"
  else if faults 6 || !decide (nameIndexHolds content.metadata) then
    Except.error "SQLite Error: Metadata Index Creation error"
  else if faults 7 || !decide (tileIndexHolds content.tiles) then
    Except.error "SQLite Error: Tiles Index Creation error"
  else if faults 8 then Except.error "SQLite Error: Tile prepared statement failed to create."
  else Except.ok ⟨content.tiles, content.metadata, ⟨none, none, none, none, false⟩⟩

/-- Key that `loadRenderedTiles` computes from one fetched row: each column is read with
`sqlite3_column_int`, converted to `uint64_t` and packed. -/
def loadedKey (r : TileRow) : Nat :=
  let z := toUInt64 (sqlite3_column_int r.zoom_level)
  let x := toUInt64 (sqlite3_column_int r.tile_column)
  let y := toUInt64 (sqlite3_column_int r.tile_row)
  packKey z x y

/-- The `while (true)` loop of `loadRenderedTiles` over the rows still to fetch; `k` is the
position of the next `sqlite3_step` among the engine calls.  A refused step throws and
leaves the keys inserted so far in the set. -/
def loadRenderedTilesLoop (faults : Faults) :
    List TileRow → Nat → Finset Nat → Except String Unit × Finset Nat
  | [], k, renderedTiles =>
    if faults k then (Except.error "Could not fetch rendered rows from database", renderedTiles)
    else (Except.ok (), renderedTiles)
  | r :: rest, k, renderedTiles =>
    if faults k then (Except.error "Could not fetch rendered rows from database", renderedTiles)
    else loadRenderedTilesLoop faults rest (k + 1) (insert (loadedKey r) renderedTiles)

/-- Method `MbTilesDb::loadRenderedTiles(renderedTiles)`.  Engine calls: 0
`sqlite3_prepare_v2`, then one `sqlite3_step` per row and a last one that reports the end. -/
def MbTilesDb.loadRenderedTiles (db : MbTilesDb) (faults : Faults) (renderedTiles : Finset Nat) :
    Except String Unit × Finset Nat :=
  if faults 0 then (Except.error "Could not prepare tile fetching statement", renderedTiles)
  else loadRenderedTilesLoop faults db.tiles 1 renderedTiles

/-- The bind, step and log part of `writeTile`, with the result code of the step. -/
def MbTilesDb.writeTileStep (db : MbTilesDb) (faults : Faults) (z x y : Int) (data : Blob) :
    Rc × MbTilesDb :=
  let stmt := db.tile_stmt
  let stmt := sqlite3_reset stmt
  let stmt := sqlite3_clear_bindings stmt
  let stmt := sqlite3_bind_int stmt 1 z
  let stmt := sqlite3_bind_int stmt 2 x
  let stmt := sqlite3_bind_int stmt 3 y
  let stmt := sqlite3_bind_blob stmt data
  sqlite3_step_insert { db with tile_stmt := stmt } (faults 0)

/-- Method `MbTilesDb::writeTile(z, x, y, data, size)`: a step that does not end with
`SQLITE_DONE` is written to `std::cerr` and nothing is thrown. -/
def MbTilesDb.writeTile (db : MbTilesDb) (faults : Faults) (z x y : Int) (data : Blob) :
    MbTilesDb :=
  (db.writeTileStep faults z x y data).2

/-- Name of the single metadata entry the source writes. -/
def layerJson : String := "layer_json"

/-- Method `MbTilesDb::saveMetadata(strm)`.  Engine calls: 0 the `DELETE`, 1 the `INSERT`
of the `%Q`-quoted C string of the document. -/
def MbTilesDb.saveMetadata (db : MbTilesDb) (faults : Faults) (strm : String) :
    Except String Unit × MbTilesDb :=
  if faults 0 then (Except.error "SQLite Error: failed to set metadata", db)
  else
    let db1 := { db with metadata := db.metadata.filter (fun r => decide (r.name ≠ some layerJson)) }
    let row : MetadataRow := ⟨some layerJson, some (c_str strm)⟩
    if faults 1 || violatesNameIndex db1.metadata row then
      (Except.error "SQLite Error: failed to set metadata", db1)
    else (Except.ok (), { db1 with metadata := db1.metadata ++ [row] })

/-- The `WHERE` clause of `tileExists`: `zoom_level = %u AND tile_column = %u AND tile_row =
%u` with the three unsigned arguments. -/
def tileExistsWhere (z x y : Nat) (r : TileRow) : Bool :=
  decide (r.zoom_level = some (z : Int)) && decide (r.tile_column = some (x : Int)) &&
    decide (r.tile_row = some (y : Int))

/-- Method `MbTilesDb::tileExists(z, x, y)` with `z : i_zoom` and `x, y : i_tile`.  Engine
calls: 0 `sqlite3_prepare_v2`, 1 `sqlite3_step`. -/
def MbTilesDb.tileExists (db : MbTilesDb) (faults : Faults) (z x y : Nat) : Except String Bool :=
  if faults 0 then Except.error "SQLite Error: failed to prepare stmt for query tileExists"
  else
    let rc := sqlite3_step_select (db.tiles.filter (tileExistsWhere z x y)) (faults 1)
    let rowExists := decide (rc = Rc.SQLITE_ROW)
    if rc ≠ Rc.SQLITE_ROW ∧ rc ≠ Rc.SQLITE_DONE then Except.error "Could not query tileExists"
    else Except.ok rowExists

/-! ## CTBMBTileSerializer -/

/-- A `ctb::TerrainTile` as far as the serializer uses it: its coordinate (the tile is a
`TileCoordinate`) and the bytes that `tile->writeFile(stream)` leaves in the compressed
output stream.  The tile classes are external to this module. -/
structure TerrainTile where
  coordinate : TileCoordinate
  writeFile : Blob

/-- A `ctb::MeshTile` as far as the serializer uses it: its coordinate and the bytes that
`tile->writeFile(stream, writeVertexNormals)` leaves in the compressed output stream. -/
structure MeshTile where
  coordinate : TileCoordinate
  writeFile : Bool → Blob

/-- The data members of `ctb::CTBMBTileSerializer`.  The three counters are C++ `int`;
`validPoints` is a vector of vectors of `TilePoint`, which no method touches. -/
structure CTBMBTileSerializer where
  mbTiles : MbTilesDb
  validTiles : Int
  totalTiles : Int
  alreadyRendered : Int
  validPoints : List (List (Nat × Nat))
  renderedTiles : Finset Nat
  dbPath : String
  moutputDir : String
  mresume : Bool
deriving DecidableEq

/-- The statement `n++` on an `int` counter, with the two's-complement wrap of the compiled
code at `INT_MAX` (the C++ standard leaves that overflow undefined). -/
def intIncrement (n : Int) : Int := toInt32 (n + 1)

/-- Constructor `CTBMBTileSerializer(outputDir, datasetName, resume)`.  `file` is what the
file system holds at `dbPath`; with `resume = false` the file is unlinked before the
database is opened.  The constructor initialises none of the three counters: their
indeterminate initial values are the last three arguments. -/
def CTBMBTileSerializer.new (file : Option Container) (outputDir datasetName : String)
    (resume : Bool) (openFaults loadFaults : Faults)
    (validTiles totalTiles alreadyRendered : Int) : Except String CTBMBTileSerializer :=
  let dbPath := outputDir ++ datasetName ++ ".mbtiles"
  if resume then
    match MbTilesDb.new file openFaults with
    | Except.error e => Except.error e
    | Except.ok mbTiles =>
      match mbTiles.loadRenderedTiles loadFaults ∅ with
      | (Except.error e, _) => Except.error e
      | (Except.ok _, renderedTiles) =>
        Except.ok ⟨mbTiles, validTiles, totalTiles, alreadyRendered, [], renderedTiles, dbPath,
          outputDir, resume⟩
  else
    match MbTilesDb.new none openFaults with
    | Except.error e => Except.error e
    | Except.ok mbTiles =>
      Except.ok ⟨mbTiles, validTiles, totalTiles, alreadyRendered, [], ∅, dbPath, outputDir,
        resume⟩

/-- Method `checkIfAlreadyRendered(coord)`: `renderedTiles.find(key) != renderedTiles.end()`. -/
def CTBMBTileSerializer.checkIfAlreadyRendered (s : CTBMBTileSerializer)
    (coord : TileCoordinate) : Bool :=
  let z := coord.zoom
  let x := coord.x
  let y := coord.y
  let alreadyRendered := decide (packKey z x y ∈ s.renderedTiles)
  alreadyRendered

/-- Method `recordValidPoint(coord)`. -/
def CTBMBTileSerializer.recordValidPoint (s : CTBMBTileSerializer) (coord : TileCoordinate) :
    CTBMBTileSerializer :=
  let z := coord.zoom
  let x := coord.x
  let y := coord.y
  let s := { s with validTiles := intIncrement s.validTiles }
  { s with renderedTiles := insert (packKey z x y) s.renderedTiles }

/-- Method `mustSerializeCoordinate(coordinate)`. -/
def CTBMBTileSerializer.mustSerializeCoordinate (s : CTBMBTileSerializer)
    (coordinate : TileCoordinate) : Bool × CTBMBTileSerializer :=
  if !s.mresume then (true, s)
  else
    let rendered := s.checkIfAlreadyRendered coordinate
    let s := if rendered then { s with alreadyRendered := intIncrement s.alreadyRendered } else s
    (!rendered, s)

/-- Method `hasCoordinate(coordinate)`; `faults` are those of the `tileExists` call. -/
def CTBMBTileSerializer.hasCoordinate (s : CTBMBTileSerializer) (faults : Faults)
    (coordinate : TileCoordinate) : Except String Bool × CTBMBTileSerializer :=
  let rendered := s.checkIfAlreadyRendered coordinate
  if !rendered then
    match s.mbTiles.tileExists faults coordinate.zoom coordinate.x coordinate.y with
    | Except.error e => (Except.error e, s)
    | Except.ok rendered => (Except.ok rendered, s)
  else (Except.ok rendered, s)

/-- Method `saveMetadata(strm)`: forwards to the database. -/
def CTBMBTileSerializer.saveMetadata (s : CTBMBTileSerializer) (faults : Faults) (strm : String) :
    Except String Unit × CTBMBTileSerializer :=
  let r := s.mbTiles.saveMetadata faults strm
  (r.1, { s with mbTiles := r.2 })

/-- Method `serializeTile(const TerrainTile *tile)`.  The unsigned coordinate fields are
converted to the `int` parameters of `writeTile`. -/
def CTBMBTileSerializer.serializeTile (s : CTBMBTileSerializer) (faults : Faults)
    (tile : TerrainTile) : Bool × CTBMBTileSerializer :=
  let coordinate := tile.coordinate
  let stream := tile.writeFile
  let mbTiles := s.mbTiles.writeTile faults (toInt32 coordinate.zoom) (toInt32 coordinate.x)
    (toInt32 coordinate.y) stream
  (true, { s with mbTiles := mbTiles })

/-- Method `serializeTile(const MeshTile *tile, bool writeVertexNormals)`. -/
def CTBMBTileSerializer.serializeMeshTile (s : CTBMBTileSerializer) (faults : Faults)
    (tile : MeshTile) (writeVertexNormals : Bool) : Bool × CTBMBTileSerializer :=
  let coordinate := tile.coordinate
  let stream := tile.writeFile writeVertexNormals
  let mbTiles := s.mbTiles.writeTile faults (toInt32 coordinate.zoom) (toInt32 coordinate.x)
    (toInt32 coordinate.y) stream
  (true, { s with mbTiles := mbTiles })

/-! ## Vocabulary of the statements -/

deriving instance DecidableEq for Except

/-- The row holds the coordinate `c` in its three key columns. -/
def TileRow.HasCoordinate (r : TileRow) (c : TileCoordinate) : Prop :=
  r.zoom_level = some (c.zoom : Int) ∧ r.tile_column = some (c.x : Int) ∧
    r.tile_row = some (c.y : Int)

instance (r : TileRow) (c : TileCoordinate) : Decidable (r.HasCoordinate c) := by
  unfold TileRow.HasCoordinate; infer_instance

/-- The key columns of the row hold a coordinate inside the bit budget. -/
def TileRow.InBudget (r : TileRow) : Prop :=
  match r.zoom_level, r.tile_column, r.tile_row with
  | some z, some x, some y => (0 ≤ z ∧ z ≤ 63) ∧ (0 ≤ x ∧ x < 2 ^ 29) ∧ (0 ≤ y ∧ y < 2 ^ 29)
  | _, _, _ => False

instance (r : TileRow) : Decidable r.InBudget := by
  unfold TileRow.InBudget; split <;> infer_instance

/-- The rows of the table stored under the index key `(z, x, y)`. -/
def rowsAt (rows : List TileRow) (z x y : Int) : List TileRow :=
  rows.filter (fun r => decide (r.indexKey = some (z, x, y)))

/-- The container of the scenario in the specification: tiles written for `(0, 0, 0)` and
`(1, 1, 0)`. -/
def demoContainer : Container :=
  ⟨[⟨some 0, some 0, some 0, some [1]⟩, ⟨some 1, some 1, some 0, some [2]⟩], []⟩

/-- A container with the single tile `(30, 1, 0)`. -/
def zoom30Container : Container :=
  ⟨[⟨some 30, some 1, some 0, some [1]⟩], []⟩

/-- An open database without rows, its insert statement freshly prepared. -/
def emptyDb : MbTilesDb := ⟨[], [], ⟨none, none, none, none, false⟩⟩

/-- The serializer of a fresh session over an empty database. -/
def freshSerializer : CTBMBTileSerializer :=
  ⟨emptyDb, 0, 0, 0, [], ∅, "out/demo.mbtiles", "out/", false⟩

/-- A terrain tile at column `2 ^ 31` of zoom 31, whose encoded content is the byte 1. -/
def zoom31Tile : TerrainTile := ⟨⟨31, 2147483648, 0⟩, [1]⟩

/-- The row that `insert into tiles … values (?, ?, ?, ?)` makes of four bound values. -/
def tileRowOf (z x y : Int) (data : Blob) : TileRow :=
  ⟨some z, some x, some y, some data⟩

/-- The insert statement after it was bound to four values and stepped. -/
def steppedStmt (z x y : Int) (data : Blob) : TileStmt :=
  ⟨some z, some x, some y, some data, true⟩

/-- The database after `writeTile(z, x, y, p1)` followed by `writeTile(z, x, y, p2)`, the
engine performing both steps. -/
def writeTwice (db : MbTilesDb) (z x y : Int) (p1 p2 : Blob) : MbTilesDb :=
  (db.writeTile noFaults z x y p1).writeTile noFaults z x y p2

/-- A database that already holds the tile `(0, 0, 0)` with the payload byte 9. -/
def oneTileDb : MbTilesDb :=
  ⟨[⟨some 0, some 0, some 0, some [9]⟩], [], ⟨none, none, none, none, false⟩⟩

/-- The metadata rows stored under the name `layer_json`. -/
def layerJsonEntries (rows : List MetadataRow) : List MetadataRow :=
  rows.filter (fun r => decide (r.name = some layerJson))

/-- The metadata rows stored under another name, or under no name. -/
def otherEntries (rows : List MetadataRow) : List MetadataRow :=
  rows.filter (fun r => decide (r.name ≠ some layerJson))

/-- A document of three characters whose second character is NUL. -/
def nulDocument : String := String.mk ['a', Char.ofNat 0, 'b']

/-- A resumed serializer whose skipped counter stands at `INT_MAX` and whose index holds the
key of `(1, 1, 0)`. -/
def saturatedSerializer : CTBMBTileSerializer :=
  ⟨emptyDb, 0, 0, 2147483647, [], {coordinateKey ⟨1, 1, 0⟩}, "out/demo.mbtiles", "out/", true⟩

/-- The serializer of a session resumed over `demoContainer`: the store holds the rows of
`(0, 0, 0)` and `(1, 1, 0)` and the index holds their two keys. -/
def resumedSerializer : CTBMBTileSerializer :=
  ⟨⟨demoContainer.tiles, [], ⟨none, none, none, none, false⟩⟩, 0, 0, 0, [],
    {coordinateKey ⟨0, 0, 0⟩, coordinateKey ⟨1, 1, 0⟩}, "out/demo.mbtiles", "out/", true⟩

/-- The last tile coordinate whose column and row fit a signed 32-bit `int`, at zoom 31. -/
def lastSignedTile : TileCoordinate := ⟨31, 2147483647, 2147483647⟩

/-! ## Properties -/

theorem packKey_eq_add {z x y : Nat} (hz : z ≤ 63) (hx : x < 2 ^ 29) (hy : y < 2 ^ 29) :
    packKey z x y = 2 ^ 58 * z + 2 ^ 29 * x + y := by
  have h1 : z <<< 58 < 2 ^ 64 := by rw [Nat.shiftLeft_eq]; omega
  have h2 : x <<< 29 < 2 ^ 64 := by rw [Nat.shiftLeft_eq]; omega
  unfold packKey u64
  rw [Nat.mod_eq_of_lt h1, Nat.mod_eq_of_lt h2, Nat.shiftLeft_eq, Nat.shiftLeft_eq,
    Nat.mul_comm z, Nat.mul_comm x]
  have e1 : 2 ^ 58 * z ||| 2 ^ 29 * x = 2 ^ 58 * z + 2 ^ 29 * x :=
    (Nat.mul_add_lt_is_or (by omega) z).symm
  have e2 : 2 ^ 58 * z + 2 ^ 29 * x = 2 ^ 29 * (2 ^ 29 * z + x) := by ring
  rw [e1, e2, ← Nat.mul_add_lt_is_or hy]

theorem packKey_injective_in_budget {z1 x1 y1 z2 x2 y2 : Nat}
    (hz1 : z1 ≤ 63) (hx1 : x1 < 2 ^ 29) (hy1 : y1 < 2 ^ 29)
    (hz2 : z2 ≤ 63) (hx2 : x2 < 2 ^ 29) (hy2 : y2 < 2 ^ 29)
    (h : packKey z1 x1 y1 = packKey z2 x2 y2) : z1 = z2 ∧ x1 = x2 ∧ y1 = y2 := by
  rw [packKey_eq_add hz1 hx1 hy1, packKey_eq_add hz2 hx2 hy2] at h
  omega

theorem coordinateKey_inj {c1 c2 : TileCoordinate} (h1 : c1.InBudget) (h2 : c2.InBudget)
    (h : coordinateKey c1 = coordinateKey c2) : c1 = c2 := by
  obtain ⟨hz1, hx1, hy1⟩ := h1
  obtain ⟨hz2, hx2, hy2⟩ := h2
  obtain ⟨a, b, c⟩ := packKey_injective_in_budget hz1 hx1 hy1 hz2 hx2 hy2 h
  cases c1; cases c2; simp_all

theorem checkIfAlreadyRendered_iff (s : CTBMBTileSerializer) (c : TileCoordinate) :
    s.checkIfAlreadyRendered c = true ↔ coordinateKey c ∈ s.renderedTiles := by
  simp [CTBMBTileSerializer.checkIfAlreadyRendered, coordinateKey]

/-! ### C1 -/

/-- C1: the key `(zoom << 58) | (column << 29) | row` that `checkIfAlreadyRendered` and
`recordValidPoint` compute in 64-bit unsigned arithmetic is injective on the documented bit
budget: two coordinates with zoom at most 63 and column and row below `2 ^ 29` that have
equal keys have equal zoom, column and row. -/
theorem coordinateKey_injective_in_budget (c1 c2 : TileCoordinate)
    (h1 : c1.zoom ≤ 63 ∧ c1.x < 2 ^ 29 ∧ c1.y < 2 ^ 29)
    (h2 : c2.zoom ≤ 63 ∧ c2.x < 2 ^ 29 ∧ c2.y < 2 ^ 29)
    (h : coordinateKey c1 = coordinateKey c2) :
    c1.zoom = c2.zoom ∧ c1.x = c2.x ∧ c1.y = c2.y :=
  packKey_injective_in_budget h1.1 h1.2.1 h1.2.2 h2.1 h2.2.1 h2.2.2 h

/-- Witness of C1 at the coordinate `(24, 16777215, 16777215)`, the last tile of zoom 24. -/
theorem coordinateKey_injective_in_budget_witness :
    coordinateKey ⟨24, 16777215, 16777215⟩ = 6926536226375729151 ∧
      ((24 : Nat) = 24 ∧ (16777215 : Nat) = 16777215 ∧ (16777215 : Nat) = 16777215) :=
  ⟨by decide, coordinateKey_injective_in_budget ⟨24, 16777215, 16777215⟩
    ⟨24, 16777215, 16777215⟩ (by decide) (by decide) rfl⟩

/-! ### C2 -/

/-- C2: `mustSerializeCoordinate(c)` returns true if and only if the session is fresh
(`mresume` is false) or the key of `c` is absent from `renderedTiles`; this holds in every
serializer state, so in a fresh session the answer is true whatever the index holds. -/
theorem mustSerializeCoordinate_true_iff (s : CTBMBTileSerializer) (c : TileCoordinate) :
    (s.mustSerializeCoordinate c).1 = true ↔
      (s.mresume = false ∨ coordinateKey c ∉ s.renderedTiles) := by
  unfold CTBMBTileSerializer.mustSerializeCoordinate
  cases hr : s.mresume
  · simp
  · simp [← checkIfAlreadyRendered_iff]

/-! ### C3 -/

theorem toInt32_of_small {i : Int} (h0 : 0 ≤ i) (h1 : i < 2 ^ 31) : toInt32 i = i := by
  unfold toInt32; omega

theorem toUInt64_natCast {n : Nat} (h : n < 2 ^ 64) : toUInt64 (n : Int) = n := by
  unfold toUInt64; omega

theorem loadedKey_of_hasCoordinate {r : TileRow} {c : TileCoordinate} (h : r.HasCoordinate c)
    (hz : c.zoom < 2 ^ 31) (hx : c.x < 2 ^ 31) (hy : c.y < 2 ^ 31) :
    loadedKey r = coordinateKey c := by
  obtain ⟨e1, e2, e3⟩ := h
  have a1 : toInt32 (c.zoom : Int) = c.zoom := toInt32_of_small (by omega) (by omega)
  have a2 : toInt32 (c.x : Int) = c.x := toInt32_of_small (by omega) (by omega)
  have a3 : toInt32 (c.y : Int) = c.y := toInt32_of_small (by omega) (by omega)
  have b1 : toUInt64 (c.zoom : Int) = c.zoom := toUInt64_natCast (by omega)
  have b2 : toUInt64 (c.x : Int) = c.x := toUInt64_natCast (by omega)
  have b3 : toUInt64 (c.y : Int) = c.y := toUInt64_natCast (by omega)
  simp only [loadedKey, coordinateKey, sqlite3_column_int, e1, e2, e3, a1, a2, a3, b1, b2, b3]

theorem indexKey_of_hasCoordinate {r : TileRow} {c : TileCoordinate} (h : r.HasCoordinate c) :
    r.indexKey = some ((c.zoom : Int), (c.x : Int), (c.y : Int)) := by
  obtain ⟨e1, e2, e3⟩ := h
  simp [TileRow.indexKey, e1, e2, e3]

theorem exists_coordinate_of_inBudget {r : TileRow} (h : r.InBudget) :
    ∃ c : TileCoordinate, c.InBudget ∧ r.HasCoordinate c := by
  unfold TileRow.InBudget at h
  split at h
  · rename_i z x y e1 e2 e3
    have hz : ((z.toNat : Nat) : Int) = z := Int.toNat_of_nonneg h.1.1
    have hx : ((x.toNat : Nat) : Int) = x := Int.toNat_of_nonneg h.2.1.1
    have hy : ((y.toNat : Nat) : Int) = y := Int.toNat_of_nonneg h.2.2.1
    refine ⟨⟨z.toNat, x.toNat, y.toNat⟩, ⟨?_, ?_, ?_⟩, ?_, ?_, ?_⟩
    · show z.toNat ≤ 63
      omega
    · show x.toNat < 2 ^ 29
      omega
    · show y.toNat < 2 ^ 29
      omega
    · rw [e1]; exact congrArg some hz.symm
    · rw [e2]; exact congrArg some hx.symm
    · rw [e3]; exact congrArg some hy.symm
  · exact absurd h id

theorem hasCoordinate_unique {r : TileRow} {c1 c2 : TileCoordinate} (h1 : r.HasCoordinate c1)
    (h2 : r.HasCoordinate c2) : c1 = c2 := by
  obtain ⟨a1, a2, a3⟩ := h1
  obtain ⟨b1, b2, b3⟩ := h2
  rw [a1] at b1; rw [a2] at b2; rw [a3] at b3
  cases c1; cases c2
  simp only [Option.some.injEq, Nat.cast_inj] at b1 b2 b3
  simp [b1, b2, b3]

theorem loadRenderedTilesLoop_noFaults (rows : List TileRow) (k : Nat) (s : Finset Nat) :
    loadRenderedTilesLoop noFaults rows k s =
      (Except.ok (), s ∪ (rows.map loadedKey).toFinset) := by
  induction rows generalizing k s with
  | nil => simp [loadRenderedTilesLoop, noFaults]
  | cons r rest ih =>
    simp only [loadRenderedTilesLoop, noFaults, Bool.false_eq_true, if_false]
    have := ih (k + 1) (insert (loadedKey r) s)
    simp only [noFaults] at this
    rw [this]
    congr 1
    ext a
    simp only [Finset.mem_union, Finset.mem_insert, List.map_cons, List.toFinset_cons]
    tauto

theorem loadedKey_nodup (rows : List TileRow) (hb : ∀ r ∈ rows, r.InBudget)
    (hd : tileIndexHolds rows) : (rows.map loadedKey).Nodup := by
  induction rows with
  | nil => simp
  | cons r rest ih =>
    obtain ⟨c, hc, hrc⟩ := exists_coordinate_of_inBudget (hb r (List.mem_cons_self _ _))
    have hk := indexKey_of_hasCoordinate hrc
    unfold tileIndexHolds at hd
    rw [List.filterMap_cons_some hk, List.nodup_cons] at hd
    rw [List.map_cons, List.nodup_cons]
    refine ⟨?_, ih (fun q hq => hb q (List.mem_cons_of_mem _ hq)) hd.2⟩
    intro hmem
    obtain ⟨q, hq, hqk⟩ := List.mem_map.1 hmem
    obtain ⟨d, hdb, hqd⟩ := exists_coordinate_of_inBudget (hb q (List.mem_cons_of_mem _ hq))
    have e1 := loadedKey_of_hasCoordinate hrc (by have := hc.1; omega) (by have := hc.2.1; omega)
      (by have := hc.2.2; omega)
    have e2 := loadedKey_of_hasCoordinate hqd (by have := hdb.1; omega)
      (by have := hdb.2.1; omega) (by have := hdb.2.2; omega)
    have hcd : d = c := coordinateKey_inj hdb hc (by rw [← e1, ← e2, hqk])
    subst hcd
    exact hd.1 (List.mem_filterMap.2 ⟨q, hq, indexKey_of_hasCoordinate hqd⟩)

/-- C3, as amended: when the tile table of the container holds rows with pairwise distinct
coordinates inside the bit budget (and the container admits its two unique indexes),
constructing the serializer with `resume = true` succeeds and yields an index of exactly as
many keys as there are rows; for every coordinate inside the bit budget
`mustSerializeCoordinate` then returns false exactly when a row holds that coordinate, and
true otherwise; without rows the index is empty. -/
theorem resume_load_exact_in_budget (ct : Container) (outputDir datasetName : String)
    (validTiles totalTiles alreadyRendered : Int)
    (hbudget : ∀ r ∈ ct.tiles, r.InBudget)
    (hdistinct : tileIndexHolds ct.tiles)
    (hnames : nameIndexHolds ct.metadata) :
    ∃ s, CTBMBTileSerializer.new (some ct) outputDir datasetName true noFaults noFaults
          validTiles totalTiles alreadyRendered = Except.ok s ∧
      s.renderedTiles.card = ct.tiles.length ∧
      (∀ c : TileCoordinate, c.InBudget →
        ((s.mustSerializeCoordinate c).1 = false ↔ ∃ r ∈ ct.tiles, r.HasCoordinate c)) ∧
      (∀ c : TileCoordinate, c.InBudget →
        ((s.mustSerializeCoordinate c).1 = true ↔ ¬ ∃ r ∈ ct.tiles, r.HasCoordinate c)) ∧
      (ct.tiles = [] → s.renderedTiles = ∅) := by
  have hidx : ∀ c : TileCoordinate, c.InBudget →
      (coordinateKey c ∈ (ct.tiles.map loadedKey).toFinset ↔
        ∃ r ∈ ct.tiles, r.HasCoordinate c) := by
    intro c hc
    rw [List.mem_toFinset, List.mem_map]
    constructor
    · rintro ⟨r, hr, hk⟩
      obtain ⟨d, hdb, hrd⟩ := exists_coordinate_of_inBudget (hbudget r hr)
      have e := loadedKey_of_hasCoordinate hrd (by have := hdb.1; omega)
        (by have := hdb.2.1; omega) (by have := hdb.2.2; omega)
      have : d = c := coordinateKey_inj hdb hc (by rw [← e, hk])
      subst this
      exact ⟨r, hr, hrd⟩
    · rintro ⟨r, hr, hrc⟩
      exact ⟨r, hr, loadedKey_of_hasCoordinate hrc (by have := hc.1; omega)
        (by have := hc.2.1; omega) (by have := hc.2.2; omega)⟩
  refine ⟨⟨⟨ct.tiles, ct.metadata, ⟨none, none, none, none, false⟩⟩, validTiles, totalTiles,
    alreadyRendered, [], (ct.tiles.map loadedKey).toFinset,
    outputDir ++ datasetName ++ ".mbtiles", outputDir, true⟩, ?_, ?_, ?_, ?_, ?_⟩
  · simp [CTBMBTileSerializer.new, MbTilesDb.new, MbTilesDb.loadRenderedTiles,
      loadRenderedTilesLoop_noFaults, hdistinct, hnames]
    simp [noFaults]
  · exact (List.toFinset_card_of_nodup (loadedKey_nodup ct.tiles hbudget hdistinct)).trans
      (List.length_map _ _)
  · intro c hc
    rw [← hidx c hc]
    simp [CTBMBTileSerializer.mustSerializeCoordinate,
      CTBMBTileSerializer.checkIfAlreadyRendered, coordinateKey]
  · intro c hc
    rw [← hidx c hc]
    simp [CTBMBTileSerializer.mustSerializeCoordinate,
      CTBMBTileSerializer.checkIfAlreadyRendered, coordinateKey]
  · intro h
    simp [h]

/-- C3 fails as stated: over the container with the single row `(30, 1, 0)`, which is
inside the bit budget, the resumed serializer holds one key, and `mustSerializeCoordinate`
returns false for the coordinate `(30, 0, 2 ^ 29)`, which no row holds: its key
`(30 << 58) | 2 ^ 29` is the key of `(30, 1, 0)`. -/
theorem resume_load_aliases_outside_budget :
    ∃ s, CTBMBTileSerializer.new (some zoom30Container) "out/" "demo" true noFaults noFaults
          0 0 0 = Except.ok s ∧
      (zoom30Container.tiles.all (fun r => decide r.InBudget) = true ∧
        tileIndexHolds zoom30Container.tiles) ∧
      s.renderedTiles.card = 1 ∧
      TileCoordinate.Valid ⟨30, 0, 536870912⟩ ∧
      (zoom30Container.tiles.any
        (fun r => decide (r.HasCoordinate ⟨30, 0, 536870912⟩)) = false) ∧
      (s.mustSerializeCoordinate ⟨30, 0, 536870912⟩).1 = false :=
  ⟨⟨⟨zoom30Container.tiles, [], ⟨none, none, none, none, false⟩⟩, 0, 0, 0, [],
      {packKey 30 1 0}, "out/demo.mbtiles", "out/", true⟩,
    by decide, by decide, by decide, by decide, by decide, by decide⟩

/-- Witness of C3 as amended, on the scenario of the specification: over the rows
`(0, 0, 0)` and `(1, 1, 0)` the resumed index has size 2, `mustSerializeCoordinate` is false
at `(1, 1, 0)` and true at `(2, 0, 0)`. -/
theorem resume_load_exact_in_budget_witness :
    ∃ s, CTBMBTileSerializer.new (some demoContainer) "out/" "demo" true noFaults noFaults
          0 0 0 = Except.ok s ∧
      s.renderedTiles.card = 2 ∧
      (s.mustSerializeCoordinate ⟨1, 1, 0⟩).1 = false ∧
      (s.mustSerializeCoordinate ⟨2, 0, 0⟩).1 = true := by
  obtain ⟨s, h1, h2, h3, h4, _⟩ := resume_load_exact_in_budget demoContainer "out/" "demo"
    0 0 0 (by decide) (by decide) (by decide)
  exact ⟨s, h1, h2, (h3 ⟨1, 1, 0⟩ (by decide)).2 (by decide),
    (h4 ⟨2, 0, 0⟩ (by decide)).2 (by decide)⟩

/-! ### C4 -/

/-- C4: `hasCoordinate(c)` returns true if and only if the key of `c` is in `renderedTiles`
or `tileExists(c.zoom, c.x, c.y)` is true on the store, and false if and only if the key is
absent and `tileExists` is false; it raises exactly the error of the store query, and only
when the key is absent; the resume flag plays no part; the serializer (index, counters and
store) is left as it was. -/
theorem hasCoordinate_index_or_store (s : CTBMBTileSerializer) (faults : Faults)
    (c : TileCoordinate) :
    ((s.hasCoordinate faults c).1 = Except.ok true ↔
      (coordinateKey c ∈ s.renderedTiles ∨
        s.mbTiles.tileExists faults c.zoom c.x c.y = Except.ok true)) ∧
    ((s.hasCoordinate faults c).1 = Except.ok false ↔
      (coordinateKey c ∉ s.renderedTiles ∧
        s.mbTiles.tileExists faults c.zoom c.x c.y = Except.ok false)) ∧
    (∀ e, (s.hasCoordinate faults c).1 = Except.error e ↔
      (coordinateKey c ∉ s.renderedTiles ∧
        s.mbTiles.tileExists faults c.zoom c.x c.y = Except.error e)) ∧
    (∀ b, ({ s with mresume := b }.hasCoordinate faults c).1 = (s.hasCoordinate faults c).1) ∧
    (s.hasCoordinate faults c).2 = s := by
  have hk := checkIfAlreadyRendered_iff s c
  have hb : ∀ b, ({ s with mresume := b } : CTBMBTileSerializer).checkIfAlreadyRendered c =
      s.checkIfAlreadyRendered c := fun _ => rfl
  unfold CTBMBTileSerializer.hasCoordinate
  simp only [hb]
  cases hr : s.checkIfAlreadyRendered c
  · have hn : coordinateKey c ∉ s.renderedTiles := by
      intro h; rw [← hk, hr] at h; exact Bool.noConfusion h
    cases ht : s.mbTiles.tileExists faults c.zoom c.x c.y <;> simp [hn]
  · have hy : coordinateKey c ∈ s.renderedTiles := hk.1 hr
    simp [hy]

/-! ### The insert path and the existence query -/

theorem writeTileStep_eq (db : MbTilesDb) (f : Faults) (z x y : Int) (data : Blob) :
    db.writeTileStep f z x y data =
      sqlite3_step_insert { db with tile_stmt := ⟨some z, some x, some y, some data, false⟩ }
        (f 0) := by
  simp [MbTilesDb.writeTileStep, sqlite3_reset, sqlite3_clear_bindings, sqlite3_bind_int,
    sqlite3_bind_blob]

theorem rowsAt_eq_nil_iff (rows : List TileRow) (z x y : Int) :
    rowsAt rows z x y = [] ↔ (z, x, y) ∉ rows.filterMap TileRow.indexKey := by
  simp [rowsAt, List.filter_eq_nil_iff, List.mem_filterMap]

theorem tileRowOf_indexKey (z x y : Int) (data : Blob) :
    (tileRowOf z x y data).indexKey = some (z, x, y) := rfl

theorem writeTileStep_present (db : MbTilesDb) (z x y : Int) (data : Blob)
    (h : (z, x, y) ∈ db.tiles.filterMap TileRow.indexKey) :
    db.writeTileStep noFaults z x y data =
      (Rc.SQLITE_CONSTRAINT, { db with tile_stmt := steppedStmt z x y data }) := by
  rw [writeTileStep_eq]
  simp [sqlite3_step_insert, noFaults, violatesTileIndex, TileRow.indexKey, h, steppedStmt]

theorem writeTileStep_absent (db : MbTilesDb) (z x y : Int) (data : Blob)
    (h : (z, x, y) ∉ db.tiles.filterMap TileRow.indexKey) :
    db.writeTileStep noFaults z x y data =
      (Rc.SQLITE_DONE,
        { db with tiles := db.tiles ++ [tileRowOf z x y data],
                  tile_stmt := steppedStmt z x y data }) := by
  rw [writeTileStep_eq]
  simp [sqlite3_step_insert, noFaults, violatesTileIndex, TileRow.indexKey, h, steppedStmt,
    tileRowOf]

theorem writeTile_present (db : MbTilesDb) (z x y : Int) (data : Blob)
    (h : (z, x, y) ∈ db.tiles.filterMap TileRow.indexKey) :
    db.writeTile noFaults z x y data = { db with tile_stmt := steppedStmt z x y data } := by
  unfold MbTilesDb.writeTile
  rw [writeTileStep_present db z x y data h]

theorem writeTile_absent (db : MbTilesDb) (z x y : Int) (data : Blob)
    (h : (z, x, y) ∉ db.tiles.filterMap TileRow.indexKey) :
    db.writeTile noFaults z x y data =
      { db with tiles := db.tiles ++ [tileRowOf z x y data],
                tile_stmt := steppedStmt z x y data } := by
  unfold MbTilesDb.writeTile
  rw [writeTileStep_absent db z x y data h]

theorem rowsAt_length_le_one (rows : List TileRow) (z x y : Int) (h : tileIndexHolds rows) :
    (rowsAt rows z x y).length ≤ 1 := by
  induction rows with
  | nil => simp [rowsAt]
  | cons r rest ih =>
    unfold tileIndexHolds at h
    by_cases hk : r.indexKey = some (z, x, y)
    · rw [List.filterMap_cons_some hk, List.nodup_cons] at h
      have hnil : rowsAt rest z x y = [] := (rowsAt_eq_nil_iff rest z x y).2 h.1
      have : rowsAt (r :: rest) z x y = r :: rowsAt rest z x y := by
        simp [rowsAt, hk]
      rw [this, hnil]
      simp
    · have hrest : tileIndexHolds rest := by
        unfold tileIndexHolds
        cases hr : r.indexKey with
        | none => rw [List.filterMap_cons_none hr] at h; exact h
        | some k => rw [List.filterMap_cons_some hr, List.nodup_cons] at h; exact h.2
      have : rowsAt (r :: rest) z x y = rowsAt rest z x y := by
        simp [rowsAt, hk]
      rw [this]
      exact ih hrest

theorem rowsAt_append (rows more : List TileRow) (z x y : Int) :
    rowsAt (rows ++ more) z x y = rowsAt rows z x y ++ rowsAt more z x y := by
  simp [rowsAt]

theorem tileIndexHolds_append_single (rows : List TileRow) (r : TileRow) (k : Int × Int × Int)
    (hr : r.indexKey = some k) (h : tileIndexHolds rows)
    (hk : k ∉ rows.filterMap TileRow.indexKey) : tileIndexHolds (rows ++ [r]) := by
  unfold tileIndexHolds at *
  rw [List.filterMap_append, List.filterMap_cons_some hr, List.filterMap_nil]
  exact List.Nodup.append h (List.nodup_singleton k) (by
    intro a ha hb
    rw [List.mem_singleton] at hb
    exact hk (hb ▸ ha))

theorem indexKey_eq_some_iff (r : TileRow) (z x y : Int) :
    r.indexKey = some (z, x, y) ↔
      (r.zoom_level = some z ∧ r.tile_column = some x ∧ r.tile_row = some y) := by
  cases r with
  | mk a b c d =>
    cases a <;> cases b <;> cases c <;> simp [TileRow.indexKey]

theorem tileExistsWhere_iff (z x y : Nat) (r : TileRow) :
    tileExistsWhere z x y r = true ↔ r.HasCoordinate ⟨z, x, y⟩ := by
  simp [tileExistsWhere, TileRow.HasCoordinate, and_assoc]

theorem tileExists_noFaults (db : MbTilesDb) (z x y : Nat) :
    db.tileExists noFaults z x y = Except.ok (db.tiles.any (tileExistsWhere z x y)) := by
  unfold MbTilesDb.tileExists sqlite3_step_select
  cases h : db.tiles.any (tileExistsWhere z x y)
  · have : db.tiles.filter (tileExistsWhere z x y) = [] := by
      rw [List.filter_eq_nil_iff]
      intro a ha hw
      rw [List.any_eq_false] at h
      exact h a ha hw
    simp [noFaults, this]
  · have : (db.tiles.filter (tileExistsWhere z x y)).isEmpty = false := by
      rw [List.any_eq_true] at h
      obtain ⟨a, ha, hw⟩ := h
      cases hf : db.tiles.filter (tileExistsWhere z x y) with
      | nil =>
        have : a ∈ db.tiles.filter (tileExistsWhere z x y) := List.mem_filter.2 ⟨ha, hw⟩
        rw [hf] at this
        exact absurd this (List.not_mem_nil a)
      | cons _ _ => rfl
    simp [noFaults, this]

/-! ### C5 -/

/-- Round trip of a write through the serializer: for a coordinate whose column and row are below
`2 ^ 31` (zoom being an unsigned short) and that has no row yet, `serializeTile` appends the
row with that coordinate and the encoded bytes of the tile, and `tileExists` on the
coordinate then returns true; on a store where no row holds a coordinate, `tileExists`
returns false. -/
theorem serializeTile_round_trip_below_two_pow_31 (s : CTBMBTileSerializer) (tile : TerrainTile)
    (hz : tile.coordinate.zoom < 2 ^ 16) (hx : tile.coordinate.x < 2 ^ 31)
    (hy : tile.coordinate.y < 2 ^ 31)
    (hnew : s.mbTiles.tiles.any
      (tileExistsWhere tile.coordinate.zoom tile.coordinate.x tile.coordinate.y) = false) :
    s.mbTiles.tileExists noFaults tile.coordinate.zoom tile.coordinate.x tile.coordinate.y =
      Except.ok false ∧
    (s.serializeTile noFaults tile).2.mbTiles.tiles =
      s.mbTiles.tiles ++
        [tileRowOf tile.coordinate.zoom tile.coordinate.x tile.coordinate.y tile.writeFile] ∧
    (s.serializeTile noFaults tile).2.mbTiles.tileExists noFaults tile.coordinate.zoom
      tile.coordinate.x tile.coordinate.y = Except.ok true := by
  have a1 : toInt32 (tile.coordinate.zoom : Int) = tile.coordinate.zoom :=
    toInt32_of_small (by omega) (by omega)
  have a2 : toInt32 (tile.coordinate.x : Int) = tile.coordinate.x :=
    toInt32_of_small (by omega) (by omega)
  have a3 : toInt32 (tile.coordinate.y : Int) = tile.coordinate.y :=
    toInt32_of_small (by omega) (by omega)
  have habs : ((tile.coordinate.zoom : Int), (tile.coordinate.x : Int),
      (tile.coordinate.y : Int)) ∉ s.mbTiles.tiles.filterMap TileRow.indexKey := by
    intro h
    obtain ⟨r, hr, hk⟩ := List.mem_filterMap.1 h
    rw [List.any_eq_false] at hnew
    exact hnew r hr ((tileExistsWhere_iff _ _ _ r).2 ((indexKey_eq_some_iff r _ _ _).1 hk))
  have e : (s.serializeTile noFaults tile).2.mbTiles =
      { s.mbTiles with
        tiles := s.mbTiles.tiles ++
          [tileRowOf tile.coordinate.zoom tile.coordinate.x tile.coordinate.y tile.writeFile],
        tile_stmt := steppedStmt tile.coordinate.zoom tile.coordinate.x tile.coordinate.y
          tile.writeFile } := by
    show s.mbTiles.writeTile noFaults (toInt32 tile.coordinate.zoom) (toInt32 tile.coordinate.x)
      (toInt32 tile.coordinate.y) tile.writeFile = _
    rw [a1, a2, a3]
    exact writeTile_absent s.mbTiles _ _ _ _ habs
  refine ⟨?_, ?_, ?_⟩
  · rw [tileExists_noFaults, hnew]
  · rw [e]
  · rw [e, tileExists_noFaults]
    have h : (s.mbTiles.tiles ++
        [tileRowOf tile.coordinate.zoom tile.coordinate.x tile.coordinate.y tile.writeFile]).any
        (tileExistsWhere tile.coordinate.zoom tile.coordinate.x tile.coordinate.y) = true := by
      rw [List.any_eq_true]
      exact ⟨_, List.mem_append_right _ (List.mem_singleton_self _),
        (tileExistsWhere_iff _ _ _ _).2 ⟨rfl, rfl, rfl⟩⟩
    exact congrArg Except.ok h

/-- C5 at the failing input: in a fresh session, serializing a tile at the coordinate
`(31, 2 ^ 31, 0)`, which has no row yet, stores the column as the signed 32-bit value
`-2 ^ 31`, and `tileExists(31, 2 ^ 31, 0)` on the same coordinate then still returns
false. -/
theorem serializeTile_tileExists_false_at_column_two_pow_31 :
    TileCoordinate.Valid zoom31Tile.coordinate ∧
    freshSerializer.mbTiles.tileExists noFaults 31 2147483648 0 = Except.ok false ∧
    (freshSerializer.serializeTile noFaults zoom31Tile).2.mbTiles.tiles =
      [⟨some 31, some (-2147483648), some 0, some [1]⟩] ∧
    (freshSerializer.serializeTile noFaults zoom31Tile).2.mbTiles.tileExists noFaults
      31 2147483648 0 = Except.ok false := by
  decide

/-! ### C6 -/

/-- C6, as amended: for every store state (its tile table satisfying the unique index),
coordinate and payloads, the second of two `writeTile` calls on the same coordinate is
rejected by the index and only logged, it changes no row, and exactly one row remains for
the coordinate; that row carries `p1` when the coordinate had no row before the first call
and is the row already stored otherwise.  A following `writeTile` of a different, unwritten
coordinate appends the row with its own coordinate and payload, whatever the statement was
bound to before, and the table still satisfies the index. -/
theorem duplicate_write_absorbed (db : MbTilesDb) (z x y : Int) (p1 p2 : Blob)
    (z' x' y' : Int) (p3 : Blob)
    (hindex : tileIndexHolds db.tiles)
    (hother : (z', x', y') ≠ (z, x, y))
    (hunwritten : rowsAt db.tiles z' x' y' = []) :
    ((db.writeTile noFaults z x y p1).writeTileStep noFaults z x y p2).1 =
        Rc.SQLITE_CONSTRAINT ∧
    (writeTwice db z x y p1 p2).tiles = (db.writeTile noFaults z x y p1).tiles ∧
    (writeTwice db z x y p1 p2).metadata = db.metadata ∧
    (rowsAt (writeTwice db z x y p1 p2).tiles z x y).length = 1 ∧
    (rowsAt db.tiles z x y = [] →
      rowsAt (writeTwice db z x y p1 p2).tiles z x y = [tileRowOf z x y p1]) ∧
    (rowsAt db.tiles z x y ≠ [] →
      rowsAt (writeTwice db z x y p1 p2).tiles z x y = rowsAt db.tiles z x y) ∧
    ((writeTwice db z x y p1 p2).writeTile noFaults z' x' y' p3).tiles =
      (writeTwice db z x y p1 p2).tiles ++ [tileRowOf z' x' y' p3] ∧
    tileIndexHolds ((writeTwice db z x y p1 p2).writeTile noFaults z' x' y' p3).tiles := by
  have hun := (rowsAt_eq_nil_iff db.tiles z' x' y').1 hunwritten
  by_cases hmem : (z, x, y) ∈ db.tiles.filterMap TileRow.indexKey
  · have hne : rowsAt db.tiles z x y ≠ [] := fun h => (rowsAt_eq_nil_iff _ _ _ _).1 h hmem
    have hlen : (rowsAt db.tiles z x y).length = 1 := by
      have h1 := rowsAt_length_le_one db.tiles z x y hindex
      have h2 : (rowsAt db.tiles z x y).length ≠ 0 := fun h => hne (List.length_eq_zero.1 h)
      omega
    have e1 := writeTile_present db z x y p1 hmem
    have e2 : writeTwice db z x y p1 p2 = { db with tile_stmt := steppedStmt z x y p2 } := by
      unfold writeTwice
      rw [e1]
      exact writeTile_present _ z x y p2 hmem
    have e3 := writeTile_absent (writeTwice db z x y p1 p2) z' x' y' p3 (by rw [e2]; exact hun)
    have e4 := writeTileStep_present (db.writeTile noFaults z x y p1) z x y p2
      (by rw [e1]; exact hmem)
    rw [e3, e4, e2, e1]
    refine ⟨rfl, rfl, rfl, hlen, fun h => absurd h hne, fun _ => rfl, rfl, ?_⟩
    exact tileIndexHolds_append_single _ _ _ (tileRowOf_indexKey _ _ _ _) hindex hun
  · have hnil : rowsAt db.tiles z x y = [] := (rowsAt_eq_nil_iff _ _ _ _).2 hmem
    have hmem1 : (z, x, y) ∈
        (db.tiles ++ [tileRowOf z x y p1]).filterMap TileRow.indexKey := by
      rw [List.filterMap_append]
      exact List.mem_append_right _ (by simp [tileRowOf, TileRow.indexKey])
    have hun1 : (z', x', y') ∉
        (db.tiles ++ [tileRowOf z x y p1]).filterMap TileRow.indexKey := by
      rw [List.filterMap_append, List.mem_append]
      rintro (h | h)
      · exact hun h
      · simp [tileRowOf, TileRow.indexKey] at h
        exact hother (by rw [h.1, h.2.1, h.2.2])
    have hat : rowsAt (db.tiles ++ [tileRowOf z x y p1]) z x y = [tileRowOf z x y p1] := by
      rw [rowsAt_append, hnil]
      simp [rowsAt, tileRowOf, TileRow.indexKey]
    have hidx1 : tileIndexHolds (db.tiles ++ [tileRowOf z x y p1]) :=
      tileIndexHolds_append_single _ _ _ (tileRowOf_indexKey _ _ _ _) hindex hmem
    have e1 := writeTile_absent db z x y p1 hmem
    have e2 : writeTwice db z x y p1 p2 =
        { db with tiles := db.tiles ++ [tileRowOf z x y p1],
                  tile_stmt := steppedStmt z x y p2 } := by
      unfold writeTwice
      rw [e1]
      exact writeTile_present _ z x y p2 hmem1
    have e3 := writeTile_absent (writeTwice db z x y p1 p2) z' x' y' p3 (by rw [e2]; exact hun1)
    have e4 := writeTileStep_present (db.writeTile noFaults z x y p1) z x y p2
      (by rw [e1]; exact hmem1)
    rw [e3, e4, e2, e1]
    refine ⟨rfl, rfl, rfl, ?_, fun _ => hat, fun h => absurd hnil h, rfl, ?_⟩
    · show (rowsAt (db.tiles ++ [tileRowOf z x y p1]) z x y).length = 1
      rw [hat]; rfl
    · exact tileIndexHolds_append_single _ _ _ (tileRowOf_indexKey _ _ _ _) hidx1 hun1

/-- C6 fails as stated: on a store that already holds the row `(0, 0, 0)` with payload
`[9]`, `writeTile(0, 0, 0, [1])` followed by `writeTile(0, 0, 0, [2])` leaves the single row
of `(0, 0, 0)` with payload `[9]`, not with `p1 = [1]`. -/
theorem duplicate_write_keeps_earlier_row :
    tileIndexHolds oneTileDb.tiles ∧
    rowsAt (writeTwice oneTileDb 0 0 0 [1] [2]).tiles 0 0 0 =
      [⟨some 0, some 0, some 0, some [9]⟩] ∧
    (rowsAt (writeTwice oneTileDb 0 0 0 [1] [2]).tiles 0 0 0).map TileRow.tile_data ≠
      [some [1]] := by
  decide

/-- Witness of C6 as amended: on the empty store, two writes at `(0, 0, 0)` and a
following write at `(1, 1, 0)`. -/
theorem duplicate_write_absorbed_witness :
    rowsAt (writeTwice emptyDb 0 0 0 [1] [2]).tiles 0 0 0 = [tileRowOf 0 0 0 [1]] ∧
    ((writeTwice emptyDb 0 0 0 [1] [2]).writeTile noFaults 1 1 0 [3]).tiles =
      [tileRowOf 0 0 0 [1], tileRowOf 1 1 0 [3]] :=
  have h := duplicate_write_absorbed emptyDb 0 0 0 [1] [2] 1 1 0 [3] (by decide) (by decide)
    (by decide)
  ⟨h.2.2.2.2.1 (by decide), by decide⟩

/-! ### C7 -/

theorem layerJson_not_mem_otherEntries (rows : List MetadataRow) :
    layerJson ∉ (otherEntries rows).filterMap MetadataRow.name := by
  intro h
  obtain ⟨r, hr, hn⟩ := List.mem_filterMap.1 h
  have := (List.mem_filter.1 hr).2
  simp [hn] at this

theorem violatesNameIndex_after_delete (rows : List MetadataRow) (v : Option String) :
    violatesNameIndex (rows.filter (fun r => decide (r.name ≠ some layerJson)))
      ⟨some layerJson, v⟩ = false := by
  show decide (layerJson ∈ (otherEntries rows).filterMap MetadataRow.name) = false
  exact decide_eq_false (layerJson_not_mem_otherEntries rows)

theorem saveMetadata_ok_iff (db : MbTilesDb) (f : Faults) (doc : String) :
    (db.saveMetadata f doc).1 = Except.ok () ↔ (f 0 = false ∧ f 1 = false) := by
  unfold MbTilesDb.saveMetadata
  simp only [violatesNameIndex_after_delete, Bool.or_false]
  cases h0 : f 0 <;> cases h1 : f 1 <;> simp

theorem saveMetadata_of_ok (db : MbTilesDb) (f : Faults) (doc : String)
    (hok : (db.saveMetadata f doc).1 = Except.ok ()) :
    (db.saveMetadata f doc).2 =
      { db with metadata := otherEntries db.metadata ++ [⟨some layerJson, some (c_str doc)⟩] } := by
  obtain ⟨h0, h1⟩ := (saveMetadata_ok_iff db f doc).1 hok
  unfold MbTilesDb.saveMetadata
  simp only [violatesNameIndex_after_delete, Bool.or_false, h0, h1]
  rfl

theorem c_str_eq_self (doc : String) (h : Char.ofNat 0 ∉ doc.data) : c_str doc = doc := by
  unfold c_str
  have : doc.data.takeWhile (fun ch => decide (ch ≠ Char.ofNat 0)) = doc.data := by
    rw [List.takeWhile_eq_self_iff]
    intro ch hch
    have : ch ≠ Char.ofNat 0 := fun e => h (e ▸ hch)
    simpa using this
  rw [this]

theorem otherEntries_append_layerJson (rows : List MetadataRow) (v : Option String) :
    otherEntries (otherEntries rows ++ [⟨some layerJson, v⟩]) = otherEntries rows := by
  simp [otherEntries, List.filter_append, List.filter_filter]

theorem layerJsonEntries_append_layerJson (rows : List MetadataRow) (v : Option String) :
    layerJsonEntries (otherEntries rows ++ [⟨some layerJson, v⟩]) = [⟨some layerJson, v⟩] := by
  simp [layerJsonEntries, otherEntries, List.filter_append, List.filter_filter]

/-- C7, as amended: when `saveMetadata(doc1)` and then `saveMetadata(doc2)` both succeed,
exactly one metadata row is named `layer_json`; its value is the C string of `doc2`, that is
`doc2` up to its first NUL character, and `doc2` itself when it holds no NUL; the metadata
rows under other names and all tile rows are unchanged; and with `doc1 = doc2` the second
call leaves the state the first one left. -/
theorem saveMetadata_replaces (db : MbTilesDb) (f1 f2 : Faults) (doc1 doc2 : String)
    (h1 : (db.saveMetadata f1 doc1).1 = Except.ok ())
    (h2 : ((db.saveMetadata f1 doc1).2.saveMetadata f2 doc2).1 = Except.ok ()) :
    layerJsonEntries ((db.saveMetadata f1 doc1).2.saveMetadata f2 doc2).2.metadata =
      [⟨some layerJson, some (c_str doc2)⟩] ∧
    (Char.ofNat 0 ∉ doc2.data → c_str doc2 = doc2) ∧
    otherEntries ((db.saveMetadata f1 doc1).2.saveMetadata f2 doc2).2.metadata =
      otherEntries db.metadata ∧
    ((db.saveMetadata f1 doc1).2.saveMetadata f2 doc2).2.tiles = db.tiles ∧
    (doc1 = doc2 →
      ((db.saveMetadata f1 doc1).2.saveMetadata f2 doc2).2 = (db.saveMetadata f1 doc1).2) := by
  have e2 := saveMetadata_of_ok _ f2 doc2 h2
  have e1 := saveMetadata_of_ok db f1 doc1 h1
  rw [e2, e1]
  refine ⟨?_, c_str_eq_self doc2, ?_, rfl, ?_⟩
  · show layerJsonEntries (otherEntries (otherEntries db.metadata ++ _) ++ _) = _
    rw [otherEntries_append_layerJson, layerJsonEntries_append_layerJson]
  · show otherEntries (otherEntries (otherEntries db.metadata ++ _) ++ _) = _
    rw [otherEntries_append_layerJson, otherEntries_append_layerJson]
  · intro h
    subst h
    show ({ tiles := db.tiles,
            metadata := otherEntries (otherEntries db.metadata ++ _) ++ _,
            tile_stmt := db.tile_stmt } : MbTilesDb) = _
    rw [otherEntries_append_layerJson]

/-- C7 fails as stated: on the empty store, after `saveMetadata("x")` and then
`saveMetadata` of the three-character document `a NUL b`, both succeeding, the single
`layer_json` row holds `"a"`, not the document. -/
theorem saveMetadata_truncates_at_nul :
    (emptyDb.saveMetadata noFaults "x").1 = Except.ok () ∧
    ((emptyDb.saveMetadata noFaults "x").2.saveMetadata noFaults nulDocument).1 =
      Except.ok () ∧
    ((emptyDb.saveMetadata noFaults "x").2.saveMetadata noFaults nulDocument).2.metadata =
      [⟨some layerJson, some "a"⟩] ∧
    nulDocument.length = 3 ∧ nulDocument ≠ "a" := by
  decide

/-- Witness of C7 as amended: on the empty store, `saveMetadata("x")` then
`saveMetadata("y")` with the engine performing every call. -/
theorem saveMetadata_replaces_witness :
    ((emptyDb.saveMetadata noFaults "x").2.saveMetadata noFaults "y").2.metadata =
      [⟨some layerJson, some "y"⟩] ∧
    layerJsonEntries ((emptyDb.saveMetadata noFaults "x").2.saveMetadata noFaults "y").2.metadata =
      [⟨some layerJson, some (c_str "y")⟩] :=
  ⟨by decide, (saveMetadata_replaces emptyDb noFaults noFaults "x" "y" (by decide)
    (by decide)).1⟩

/-! ### C8 -/

/-- C8, as amended: two distinct coordinates inside the bit budget (zoom at most 63, column
and row below `2 ^ 29`) have different keys `(zoom << 58) | (column << 29) | row`. -/
theorem coordinateKey_distinct_in_budget (c1 c2 : TileCoordinate)
    (h1 : c1.InBudget) (h2 : c2.InBudget) (hne : c1 ≠ c2) :
    coordinateKey c1 ≠ coordinateKey c2 :=
  fun h => hne (coordinateKey_inj h1 h2 h)

/-- C8 fails as stated: the coordinates `(30, 0, 2 ^ 29)` and `(30, 1, 0)` are distinct
values of the coordinate type with one key, since the row reaches into the bits of the
column; `(0, 2 ^ 29, 0)` has the key of `(1, 0, 0)`, since the column reaches into the bits
of the zoom; and `(64, 0, 0)` has the key of `(0, 0, 0)`, since `64 << 58` overflows 64
bits. -/
theorem coordinateKey_collides_outside_budget :
    (TileCoordinate.Valid ⟨30, 0, 536870912⟩ ∧ TileCoordinate.Valid ⟨30, 1, 0⟩ ∧
      (⟨30, 0, 536870912⟩ : TileCoordinate) ≠ ⟨30, 1, 0⟩ ∧
      coordinateKey ⟨30, 0, 536870912⟩ = coordinateKey ⟨30, 1, 0⟩) ∧
    (TileCoordinate.Valid ⟨0, 536870912, 0⟩ ∧ TileCoordinate.Valid ⟨1, 0, 0⟩ ∧
      (⟨0, 536870912, 0⟩ : TileCoordinate) ≠ ⟨1, 0, 0⟩ ∧
      coordinateKey ⟨0, 536870912, 0⟩ = coordinateKey ⟨1, 0, 0⟩) ∧
    (TileCoordinate.Valid ⟨64, 0, 0⟩ ∧ TileCoordinate.Valid ⟨0, 0, 0⟩ ∧
      (⟨64, 0, 0⟩ : TileCoordinate) ≠ ⟨0, 0, 0⟩ ∧
      coordinateKey ⟨64, 0, 0⟩ = coordinateKey ⟨0, 0, 0⟩) := by
  decide

/-- Witness of C8 as amended at the coordinates `(0, 0, 0)` and `(1, 1, 0)`. -/
theorem coordinateKey_distinct_in_budget_witness :
    coordinateKey ⟨0, 0, 0⟩ ≠ coordinateKey ⟨1, 1, 0⟩ :=
  coordinateKey_distinct_in_budget ⟨0, 0, 0⟩ ⟨1, 1, 0⟩ (by decide) (by decide) (by decide)

/-! ### C9 -/

/-- C9: `recordValidPoint(c)` inserts the key of `c` into `renderedTiles`: afterwards
`checkIfAlreadyRendered(c)` is true and every key of the index is still in it; when the key
was already in the index the index is unchanged, so a second call leaves the index the
first one left. -/
theorem recordValidPoint_idempotent_insert (s : CTBMBTileSerializer) (c : TileCoordinate) :
    (s.recordValidPoint c).checkIfAlreadyRendered c = true ∧
    (s.recordValidPoint c).renderedTiles = insert (coordinateKey c) s.renderedTiles ∧
    s.renderedTiles ⊆ (s.recordValidPoint c).renderedTiles ∧
    (coordinateKey c ∈ s.renderedTiles →
      (s.recordValidPoint c).renderedTiles = s.renderedTiles) ∧
    ((s.recordValidPoint c).recordValidPoint c).renderedTiles =
      (s.recordValidPoint c).renderedTiles := by
  have e : ∀ t : CTBMBTileSerializer,
      (t.recordValidPoint c).renderedTiles = insert (coordinateKey c) t.renderedTiles :=
    fun _ => rfl
  refine ⟨?_, e s, ?_, ?_, ?_⟩
  · rw [checkIfAlreadyRendered_iff, e]
    exact Finset.mem_insert_self _ _
  · rw [e]
    exact Finset.subset_insert _ _
  · intro h
    rw [e]
    exact Finset.insert_eq_of_mem h
  · rw [e, e]
    exact Finset.insert_eq_of_mem (Finset.mem_insert_self _ _)

/-! ### C10 -/

/-- C10, as amended: `mustSerializeCoordinate(c)` applies the `int` increment to the skipped
counter `alreadyRendered` when the session is resuming and the key of `c` is in the index,
and changes nothing else and nothing in any other case; the increment adds exactly one
unless the counter stands at `INT_MAX`. -/
theorem mustSerializeCoordinate_effect (s : CTBMBTileSerializer) (c : TileCoordinate) :
    (s.mustSerializeCoordinate c).2 =
      (if s.mresume = true ∧ coordinateKey c ∈ s.renderedTiles then
        { s with alreadyRendered := intIncrement s.alreadyRendered }
      else s) ∧
    ((-2 ^ 31 ≤ s.alreadyRendered ∧ s.alreadyRendered < 2 ^ 31 - 1) →
      intIncrement s.alreadyRendered = s.alreadyRendered + 1) ∧
    (s.mustSerializeCoordinate c).2.renderedTiles = s.renderedTiles ∧
    (s.mustSerializeCoordinate c).2.validTiles = s.validTiles ∧
    (s.mustSerializeCoordinate c).2.mbTiles = s.mbTiles := by
  have hk := checkIfAlreadyRendered_iff s c
  have hinc : (-2 ^ 31 ≤ s.alreadyRendered ∧ s.alreadyRendered < 2 ^ 31 - 1) →
      intIncrement s.alreadyRendered = s.alreadyRendered + 1 := by
    intro h
    unfold intIncrement toInt32
    omega
  have hstate : (s.mustSerializeCoordinate c).2 =
      (if s.mresume = true ∧ coordinateKey c ∈ s.renderedTiles then
        { s with alreadyRendered := intIncrement s.alreadyRendered }
      else s) := by
    unfold CTBMBTileSerializer.mustSerializeCoordinate
    cases hr : s.mresume
    · simp
    · cases hc : s.checkIfAlreadyRendered c
      · have hn : coordinateKey c ∉ s.renderedTiles := by
          intro h; rw [← hk, hc] at h; exact Bool.noConfusion h
        simp [hn]
      · have hy : coordinateKey c ∈ s.renderedTiles := hk.1 hc
        simp [hy]
  refine ⟨hstate, hinc, ?_, ?_, ?_⟩ <;> rw [hstate] <;> split <;> rfl

/-- C10 fails as stated: in a resumed session whose skipped counter stands at `INT_MAX`
and whose index holds the key of `(1, 1, 0)`, `mustSerializeCoordinate((1, 1, 0))` leaves the
counter at `INT_MIN`, not at the counter plus one. -/
theorem mustSerializeCoordinate_counter_wraps :
    saturatedSerializer.mresume = true ∧
    coordinateKey ⟨1, 1, 0⟩ ∈ saturatedSerializer.renderedTiles ∧
    saturatedSerializer.alreadyRendered = 2147483647 ∧
    (saturatedSerializer.mustSerializeCoordinate ⟨1, 1, 0⟩).2.alreadyRendered = -2147483648 ∧
    (saturatedSerializer.mustSerializeCoordinate ⟨1, 1, 0⟩).2.alreadyRendered ≠
      saturatedSerializer.alreadyRendered + 1 := by
  decide

/-! ### The scenario of the specification -/

/-- A fresh session over a container that already holds tiles starts from an empty store;
after writing tiles for `(0, 0, 0)` and `(1, 1, 0)` the store holds those two rows,
`tileExists(0, 0, 0)` is true, `tileExists(5, 5, 5)` is false, and
`mustSerializeCoordinate` is true. -/
theorem fresh_session_scenario :
    ∃ s, CTBMBTileSerializer.new (some demoContainer) "out/" "demo" false noFaults noFaults
        0 0 0 = Except.ok s ∧
      s.mbTiles.tiles = [] ∧
      ((s.serializeTile noFaults ⟨⟨0, 0, 0⟩, [1]⟩).2.serializeTile noFaults
        ⟨⟨1, 1, 0⟩, [2]⟩).2.mbTiles.tiles = demoContainer.tiles ∧
      ((s.serializeTile noFaults ⟨⟨0, 0, 0⟩, [1]⟩).2.serializeTile noFaults
        ⟨⟨1, 1, 0⟩, [2]⟩).2.mbTiles.tileExists noFaults 0 0 0 = Except.ok true ∧
      ((s.serializeTile noFaults ⟨⟨0, 0, 0⟩, [1]⟩).2.serializeTile noFaults
        ⟨⟨1, 1, 0⟩, [2]⟩).2.mbTiles.tileExists noFaults 5 5 5 = Except.ok false ∧
      (s.mustSerializeCoordinate ⟨1, 1, 0⟩).1 = true :=
  ⟨⟨emptyDb, 0, 0, 0, [], ∅, "out/demo.mbtiles", "out/", false⟩,
    by decide, by decide, by decide, by decide, by decide, by decide⟩

/-! ### C11 -/

theorem serializeMeshTile_eq_serializeTile (s : CTBMBTileSerializer) (faults : Faults)
    (tile : MeshTile) (writeVertexNormals : Bool) :
    s.serializeMeshTile faults tile writeVertexNormals =
      s.serializeTile faults ⟨tile.coordinate, tile.writeFile writeVertexNormals⟩ := rfl

theorem serializeTile_frame (s : CTBMBTileSerializer) (faults : Faults) (tile : TerrainTile) :
    (s.serializeTile faults tile).1 = true ∧
    (s.serializeTile faults tile).2.renderedTiles = s.renderedTiles ∧
    (s.serializeTile faults tile).2.mresume = s.mresume :=
  ⟨rfl, rfl, rfl⟩

theorem after_write_index_silent_store_answers (s : CTBMBTileSerializer) (tile : TerrainTile)
    (hbudget : tile.coordinate.InBudget)
    (hindex : coordinateKey tile.coordinate ∉ s.renderedTiles)
    (hstore : ¬ ∃ r ∈ s.mbTiles.tiles, r.HasCoordinate tile.coordinate) :
    (s.serializeTile noFaults tile).1 = true ∧
    (s.serializeTile noFaults tile).2.renderedTiles = s.renderedTiles ∧
    ((s.serializeTile noFaults tile).2.mustSerializeCoordinate tile.coordinate).1 = true ∧
    ((s.serializeTile noFaults tile).2.hasCoordinate noFaults tile.coordinate).1 =
      Except.ok true := by
  obtain ⟨hz, hx, hy⟩ := hbudget
  have hnew : s.mbTiles.tiles.any
      (tileExistsWhere tile.coordinate.zoom tile.coordinate.x tile.coordinate.y) = false := by
    rw [List.any_eq_false]
    intro r hr hw
    exact hstore ⟨r, hr, (tileExistsWhere_iff _ _ _ r).1 hw⟩
  have hrt := serializeTile_round_trip_below_two_pow_31 s tile (by omega) (by omega) (by omega)
    hnew
  have hidx : (s.serializeTile noFaults tile).2.renderedTiles = s.renderedTiles := rfl
  have hchk : (s.serializeTile noFaults tile).2.checkIfAlreadyRendered tile.coordinate =
      false := by
    cases h : (s.serializeTile noFaults tile).2.checkIfAlreadyRendered tile.coordinate
    · rfl
    · exact absurd ((checkIfAlreadyRendered_iff _ _).1 h) (by rw [hidx]; exact hindex)
  refine ⟨rfl, rfl, ?_, ?_⟩
  · unfold CTBMBTileSerializer.mustSerializeCoordinate
    rw [hchk]
    cases (s.serializeTile noFaults tile).2.mresume <;> rfl
  · unfold CTBMBTileSerializer.hasCoordinate
    rw [hchk, hrt.2.2]
    rfl

/-- C11: for every session, in particular a resumed one, and every coordinate inside the
bit budget that is in neither `renderedTiles` nor the store, `serializeTile` of a terrain
tile and of a mesh tile (with or without vertex normals) at that coordinate returns true and
leaves `renderedTiles` unchanged; afterwards `mustSerializeCoordinate` still returns true
for the coordinate, while `hasCoordinate` returns true, the answer coming from the store. -/
theorem serializeTile_does_not_update_index (s : CTBMBTileSerializer) (c : TileCoordinate)
    (payload : Blob) (encode : Bool → Blob) (writeVertexNormals : Bool)
    (hresume : s.mresume = true)
    (hbudget : c.InBudget)
    (hindex : coordinateKey c ∉ s.renderedTiles)
    (hstore : ¬ ∃ r ∈ s.mbTiles.tiles, r.HasCoordinate c) :
    ((s.serializeTile noFaults ⟨c, payload⟩).1 = true ∧
      (s.serializeTile noFaults ⟨c, payload⟩).2.renderedTiles = s.renderedTiles ∧
      (s.serializeTile noFaults ⟨c, payload⟩).2.mresume = true ∧
      ((s.serializeTile noFaults ⟨c, payload⟩).2.mustSerializeCoordinate c).1 = true ∧
      ((s.serializeTile noFaults ⟨c, payload⟩).2.hasCoordinate noFaults c).1 =
        Except.ok true ∧
      (s.serializeTile noFaults ⟨c, payload⟩).2.checkIfAlreadyRendered c = false ∧
      (s.serializeTile noFaults ⟨c, payload⟩).2.mbTiles.tileExists noFaults c.zoom c.x c.y =
        Except.ok true) ∧
    ((s.serializeMeshTile noFaults ⟨c, encode⟩ writeVertexNormals).1 = true ∧
      (s.serializeMeshTile noFaults ⟨c, encode⟩ writeVertexNormals).2.renderedTiles =
        s.renderedTiles ∧
      (s.serializeMeshTile noFaults ⟨c, encode⟩ writeVertexNormals).2.mresume = true ∧
      ((s.serializeMeshTile noFaults ⟨c, encode⟩ writeVertexNormals).2.mustSerializeCoordinate
        c).1 = true ∧
      ((s.serializeMeshTile noFaults ⟨c, encode⟩ writeVertexNormals).2.hasCoordinate noFaults
        c).1 = Except.ok true) := by
  have ht := after_write_index_silent_store_answers s ⟨c, payload⟩ hbudget hindex hstore
  have hm := after_write_index_silent_store_answers s ⟨c, encode writeVertexNormals⟩ hbudget
    hindex hstore
  have hnew : s.mbTiles.tiles.any (tileExistsWhere c.zoom c.x c.y) = false := by
    rw [List.any_eq_false]
    intro r hr hw
    exact hstore ⟨r, hr, (tileExistsWhere_iff _ _ _ r).1 hw⟩
  have hrt := serializeTile_round_trip_below_two_pow_31 s ⟨c, payload⟩
    (by have := hbudget.1; show c.zoom < 2 ^ 16; omega)
    (by have := hbudget.2.1; show c.x < 2 ^ 31; omega)
    (by have := hbudget.2.2; show c.y < 2 ^ 31; omega) hnew
  have hchk : (s.serializeTile noFaults ⟨c, payload⟩).2.checkIfAlreadyRendered c = false := by
    cases h : (s.serializeTile noFaults ⟨c, payload⟩).2.checkIfAlreadyRendered c
    · rfl
    · exact absurd ((checkIfAlreadyRendered_iff _ _).1 h) hindex
  rw [serializeMeshTile_eq_serializeTile]
  exact ⟨⟨ht.1, ht.2.1, hresume, ht.2.2.1, ht.2.2.2, hchk, hrt.2.2⟩,
    ⟨hm.1, hm.2.1, hresume, hm.2.2.1, hm.2.2.2⟩⟩

/-- Witness of C11: in the session resumed over the rows `(0, 0, 0)` and `(1, 1, 0)`, a
terrain tile written at `(2, 0, 0)` leaves the index silent about it and the store
answering. -/
theorem serializeTile_does_not_update_index_witness :
    ((resumedSerializer.serializeTile noFaults ⟨⟨2, 0, 0⟩, [7]⟩).2.mustSerializeCoordinate
      ⟨2, 0, 0⟩).1 = true ∧
    ((resumedSerializer.serializeTile noFaults ⟨⟨2, 0, 0⟩, [7]⟩).2.hasCoordinate noFaults
      ⟨2, 0, 0⟩).1 = Except.ok true :=
  have h := serializeTile_does_not_update_index resumedSerializer ⟨2, 0, 0⟩ [7]
    (fun _ => [8]) false (by decide) (by decide) (by decide) (by decide)
  ⟨h.1.2.2.2.1, h.1.2.2.2.2.1⟩

/-! ### C12 -/

theorem toInt32_natCast {n : Nat} (h : n < 2 ^ 31) : toInt32 (n : Int) = n :=
  toInt32_of_small (by omega) (by omega)

theorem tileRowOf_hasCoordinate (c : TileCoordinate) (data : Blob)
    (hz : c.zoom < 2 ^ 31) (hx : c.x < 2 ^ 31) (hy : c.y < 2 ^ 31) :
    (tileRowOf (toInt32 c.zoom) (toInt32 c.x) (toInt32 c.y) data).HasCoordinate c := by
  rw [toInt32_natCast hz, toInt32_natCast hx, toInt32_natCast hy]
  exact ⟨rfl, rfl, rfl⟩

theorem loadRenderedTiles_noFaults (db : MbTilesDb) (init : Finset Nat) :
    (db.loadRenderedTiles noFaults init).2 = init ∪ (db.tiles.map loadedKey).toFinset := by
  have h := loadRenderedTilesLoop_noFaults db.tiles 1 init
  unfold MbTilesDb.loadRenderedTiles
  show (if noFaults 0 = true then _ else loadRenderedTilesLoop noFaults db.tiles 1 init).2 = _
  rw [h]
  rfl

theorem writeTile_has_row (db : MbTilesDb) (z x y : Int) (data : Blob) :
    ∃ r ∈ (db.writeTile noFaults z x y data).tiles, r.indexKey = some (z, x, y) := by
  by_cases hmem : (z, x, y) ∈ db.tiles.filterMap TileRow.indexKey
  · rw [writeTile_present db z x y data hmem]
    obtain ⟨r, hr, hk⟩ := List.mem_filterMap.1 hmem
    exact ⟨r, hr, hk⟩
  · rw [writeTile_absent db z x y data hmem]
    exact ⟨tileRowOf z x y data, List.mem_append_right _ (List.mem_singleton_self _),
      tileRowOf_indexKey z x y data⟩

/-- C12: for every coordinate with column and row below `2 ^ 31` and a 16-bit zoom, the key
that `loadRenderedTiles` computes from the row that `writeTile` stores for the coordinate
(values bound as `int`, read back with `sqlite3_column_int`, widened to `uint64_t`) equals
the key that `checkIfAlreadyRendered` looks up and `recordValidPoint` inserts for the same
coordinate; so the index loaded from the written store holds the key of the coordinate. -/
theorem loaded_key_agrees_with_lookup_key (db : MbTilesDb) (s : CTBMBTileSerializer)
    (c : TileCoordinate) (data : Blob)
    (hz : c.zoom < 2 ^ 16) (hx : c.x < 2 ^ 31) (hy : c.y < 2 ^ 31) :
    loadedKey (tileRowOf (toInt32 c.zoom) (toInt32 c.x) (toInt32 c.y) data) =
      coordinateKey c ∧
    ((toInt32 c.zoom, toInt32 c.x, toInt32 c.y) ∉ db.tiles.filterMap TileRow.indexKey →
      (db.writeTile noFaults (toInt32 c.zoom) (toInt32 c.x) (toInt32 c.y) data).tiles =
        db.tiles ++ [tileRowOf (toInt32 c.zoom) (toInt32 c.x) (toInt32 c.y) data]) ∧
    (∃ r ∈ (db.writeTile noFaults (toInt32 c.zoom) (toInt32 c.x) (toInt32 c.y) data).tiles,
      r.HasCoordinate c ∧ loadedKey r = coordinateKey c) ∧
    coordinateKey c ∈
      ((db.writeTile noFaults (toInt32 c.zoom) (toInt32 c.x) (toInt32 c.y)
        data).loadRenderedTiles noFaults ∅).2 ∧
    s.checkIfAlreadyRendered c =
      decide (loadedKey (tileRowOf (toInt32 c.zoom) (toInt32 c.x) (toInt32 c.y) data) ∈
        s.renderedTiles) ∧
    (s.recordValidPoint c).renderedTiles =
      insert (loadedKey (tileRowOf (toInt32 c.zoom) (toInt32 c.x) (toInt32 c.y) data))
        s.renderedTiles := by
  have hz31 : c.zoom < 2 ^ 31 := by omega
  have hkey : loadedKey (tileRowOf (toInt32 c.zoom) (toInt32 c.x) (toInt32 c.y) data) =
      coordinateKey c :=
    loadedKey_of_hasCoordinate (tileRowOf_hasCoordinate c data hz31 hx hy) hz31 hx hy
  have hrow : ∃ r ∈ (db.writeTile noFaults (toInt32 c.zoom) (toInt32 c.x) (toInt32 c.y)
      data).tiles, r.HasCoordinate c ∧ loadedKey r = coordinateKey c := by
    obtain ⟨r, hr, hk⟩ := writeTile_has_row db (toInt32 c.zoom) (toInt32 c.x) (toInt32 c.y) data
    rw [toInt32_natCast hz31, toInt32_natCast hx, toInt32_natCast hy] at hk
    have hc : r.HasCoordinate c := (indexKey_eq_some_iff r _ _ _).1 hk
    exact ⟨r, hr, hc, loadedKey_of_hasCoordinate hc hz31 hx hy⟩
  refine ⟨hkey, fun h => ?_, hrow, ?_, ?_, ?_⟩
  · rw [writeTile_absent db _ _ _ data h]
  · obtain ⟨r, hr, _, hk⟩ := hrow
    rw [loadRenderedTiles_noFaults, Finset.empty_union, List.mem_toFinset, List.mem_map]
    exact ⟨r, hr, hk⟩
  · rw [hkey]
    rfl
  · rw [hkey]
    rfl

/-- Witness of C12 at the coordinate `(31, 2 ^ 31 - 1, 2 ^ 31 - 1)` written to the empty
store. -/
theorem loaded_key_agrees_with_lookup_key_witness :
    loadedKey (tileRowOf (toInt32 lastSignedTile.zoom) (toInt32 lastSignedTile.x)
      (toInt32 lastSignedTile.y) [1]) = coordinateKey lastSignedTile ∧
    coordinateKey lastSignedTile ∈
      ((emptyDb.writeTile noFaults (toInt32 lastSignedTile.zoom) (toInt32 lastSignedTile.x)
        (toInt32 lastSignedTile.y) [1]).loadRenderedTiles noFaults ∅).2 :=
  have h := loaded_key_agrees_with_lookup_key emptyDb freshSerializer lastSignedTile [1]
    (by decide) (by decide) (by decide)
  ⟨h.1, h.2.2.2.1⟩

/-- The bound of `2 ^ 31` is where the two key computations part: the row that `writeTile`
stores for the column `2 ^ 31` is read back as `-2 ^ 31`, and the key loaded from it is not
the key looked up for the coordinate. -/
theorem loaded_key_differs_at_column_two_pow_31 :
    loadedKey (tileRowOf (toInt32 zoom31Tile.coordinate.zoom) (toInt32 zoom31Tile.coordinate.x)
      (toInt32 zoom31Tile.coordinate.y) [1]) ≠ coordinateKey zoom31Tile.coordinate := by
  decide

end ctb
